import Mathlib

/-!
Shallow embedding of the game-state engine and renderer selection logic of
`snake-rs` (`src/main.rs`).  Machine integers (`i32`) are modelled as `Int`;
`usize` as `Nat`, with the single `as i32` cast modelled by `usizeAsI32`.
The thread RNG is modelled by an explicit stream of raw draws: `gen_range(lo..hi)`
becomes `genRange lo hi r` for a raw draw `r : Nat`, which lands in `[lo, hi)`
whenever `lo < hi`.  The unbounded rejection loop of `Fruit::random_from_field`
is modelled with explicit fuel, returning `none` when the fuel runs out.
-/

namespace SnakeRs

/-- `Point` from `main.rs`: integer 2D coordinate (`i32` fields modelled as `Int`). -/
structure Point where
  x : Int
  y : Int
deriving DecidableEq

def Point.origin : Point := ⟨0, 0⟩

/-- `SnakeDirection` from `main.rs`. -/
inductive SnakeDirection where
  | up
  | right
  | down
  | left
deriving DecidableEq

/-- Spec-side helper: the exact reverse of a direction (Up↔Down, Left↔Right). -/
def SnakeDirection.opposite : SnakeDirection → SnakeDirection
  | SnakeDirection.up => SnakeDirection.down
  | SnakeDirection.right => SnakeDirection.left
  | SnakeDirection.down => SnakeDirection.up
  | SnakeDirection.left => SnakeDirection.right

/-- `Snake` from `main.rs`.  The `VecDeque` tail is a list whose index 0 is the
deque front (oldest segment); `push_back` appends at the end, `pop_front` drops
index 0. -/
structure Snake where
  head : Point
  tail : List Point
  direction : SnakeDirection
  ate_fruit : Bool
deriving DecidableEq

/-- `Snake::try_change_direction`: ignore a request that exactly reverses the
current direction, otherwise set the direction to the request. -/
def Snake.tryChangeDirection (s : Snake) (d : SnakeDirection) : Snake :=
  match s.direction, d with
  | SnakeDirection.up, SnakeDirection.down => s
  | SnakeDirection.right, SnakeDirection.left => s
  | SnakeDirection.down, SnakeDirection.up => s
  | SnakeDirection.left, SnakeDirection.right => s
  | _, _ => { s with direction := d }

/-- `Fruit` from `main.rs` (tuple struct around a `Point`; the `.0` field is
named `pos`). -/
structure Fruit where
  pos : Point
deriving DecidableEq

/-- Model of `rand::Rng::gen_range(lo..hi)`: for a raw draw `r`, returns
`lo + r % (hi - lo)`, which lies in `[lo, hi)` whenever `lo < hi`. -/
def genRange (lo hi : Int) (r : Nat) : Int :=
  lo + ((r % (hi - lo).toNat : Nat) : Int)

/-- `Fruit::random`: one sample, with the two raw draws passed explicitly. -/
def Fruit.random (x_bounds y_bounds : Int × Int) (rx ry : Nat) : Fruit :=
  ⟨⟨genRange x_bounds.1 x_bounds.2 rx, genRange y_bounds.1 y_bounds.2 ry⟩⟩

/-- `SnakeGameField` from `main.rs`. -/
structure SnakeGameField where
  size_x : Int
  size_y : Int
  snake : Snake
  fruit : Fruit
deriving DecidableEq

/-- `Fruit::random_from_field`: rejection-sample a fruit from
`(0, size_x) × (0, size_y)`, re-drawing while the candidate equals the snake
head or some tail segment.  `s` is the stream of raw RNG draws, one pair per
loop iteration; the fuel bounds the number of iterations, `none` meaning the
loop did not accept within the fuel. -/
def Fruit.randomFromField (field : SnakeGameField) (s : Nat → Nat × Nat) :
    Nat → Option Fruit
  | 0 => none
  | fuel + 1 =>
    let fruit := Fruit.random (0, field.size_x) (0, field.size_y) (s 0).1 (s 0).2
    if field.snake.head = fruit.pos ∨ fruit.pos ∈ field.snake.tail then
      Fruit.randomFromField field (fun n => s (n + 1)) fuel
    else
      some fruit

/-- `SnakeGameField::create`: 10×10 field, snake at the origin heading Right
with empty tail, fruit drawn once from `(1, 10) × (1, 10)`. -/
def SnakeGameField.create (rx ry : Nat) : SnakeGameField :=
  let size_x : Int := 10
  let size_y : Int := 10
  { size_x := size_x
    size_y := size_y
    snake :=
      { head := Point.origin
        tail := []
        direction := SnakeDirection.right
        ate_fruit := false }
    fruit := Fruit.random (1, size_x) (1, size_y) rx ry }

/-- `SnakeGameField::handle_snake_fruit_collision`: when the head sits on the
fruit, set `ate_fruit` and resample the fruit via the rejection loop. -/
def SnakeGameField.handleSnakeFruitCollision (s : Nat → Nat × Nat) (fuel : Nat)
    (f : SnakeGameField) : Option SnakeGameField :=
  if f.snake.head = f.fruit.pos then
    let f1 : SnakeGameField := { f with snake := { f.snake with ate_fruit := true } }
    (Fruit.randomFromField f1 s fuel).map (fun fr => { f1 with fruit := fr })
  else
    some f

/-- `SnakeGameField::push_snake`: move the head one cell in the current
direction with wraparound, then update the tail (and reset `ate_fruit`). -/
def SnakeGameField.pushSnake (f : SnakeGameField) : SnakeGameField :=
  let snake := f.snake
  let old_head := snake.head
  let head : Point :=
    match snake.direction with
    | SnakeDirection.up =>
      let y := snake.head.y - 1
      { snake.head with y := if y = -1 then f.size_y - 1 else y }
    | SnakeDirection.right =>
      let x := snake.head.x + 1
      { snake.head with x := if x = f.size_x then 0 else x }
    | SnakeDirection.down =>
      let y := snake.head.y + 1
      { snake.head with y := if y = f.size_y then 0 else y }
    | SnakeDirection.left =>
      let x := snake.head.x - 1
      { snake.head with x := if x = -1 then f.size_x - 1 else x }
  let newTail : List Point :=
    if snake.tail.isEmpty = false then
      let t := snake.tail ++ [old_head]
      if snake.ate_fruit then t else t.tail
    else
      if snake.ate_fruit then [old_head] else snake.tail
  { f with snake := { snake with head := head, tail := newTail, ate_fruit := false } }

/-- `SnakeGameField::check_snake_collision`: the loop over the tail returns
true exactly when some segment equals the head. -/
def SnakeGameField.checkSnakeCollision (f : SnakeGameField) : Bool :=
  f.snake.tail.any (fun tail_part => decide (f.snake.head = tail_part))

/-- The `as i32` cast of a `usize` value: truncate to 32 bits and reinterpret
as a signed 32-bit integer. -/
def usizeAsI32 (n : Nat) : Int :=
  ((n % 2 ^ 32 : Nat) : Int) - (if n % 2 ^ 32 < 2 ^ 31 then 0 else 2 ^ 32)

/-- `SnakeGameField::check_win`: `size_x * size_y == (tail.len() + 1) as i32`. -/
def SnakeGameField.checkWin (f : SnakeGameField) : Bool :=
  decide (f.size_x * f.size_y = usizeAsI32 (f.snake.tail.length + 1))

/-- Colors used by `SnakeGameRenderer::render` (`SQUARE_COLOR`,
`SNAKE_PART_COLOR`, `FRUIT_COLOR`). -/
inductive RenderColor where
  | squareColor
  | snakePartColor
  | fruitColor
deriving DecidableEq

/-- One observable GPU action of `SnakeGameRenderer::render`: clearing the
color buffer, drawing the field square, or binding and drawing one cell quad
with the current color uniform. -/
inductive DrawCmd where
  | clear
  | fieldSquare
  | cellQuad (idx : Int) (color : RenderColor)
deriving DecidableEq

/-- `get_quad` from `SnakeGameRenderer::render`: row-major cell index
`x + y * 10` (the stride 10 is hardcoded in the source). -/
def getQuad (p : Point) : Int :=
  p.x + p.y * 10

/-- `SnakeGameRenderer::render` as the sequence of draw commands it issues:
clear, field square, fruit quad (only when the head is not on the fruit),
head quad, then one quad per tail segment in iteration order. -/
def SnakeGameRenderer.render (f : SnakeGameField) : List DrawCmd :=
  [DrawCmd.clear, DrawCmd.fieldSquare]
    ++ (if f.snake.head ≠ f.fruit.pos then
          [DrawCmd.cellQuad (getQuad f.fruit.pos) RenderColor.fruitColor]
        else [])
    ++ [DrawCmd.cellQuad (getQuad f.snake.head) RenderColor.snakePartColor]
    ++ f.snake.tail.map
        (fun tail_part => DrawCmd.cellQuad (getQuad tail_part) RenderColor.snakePartColor)

/-- Spec-side predicate: `p` lies in `[0, size_x) × [0, size_y)` — the cell
grid of the field, which is also the candidate domain of the resampling loop. -/
def pointInField (f : SnakeGameField) (p : Point) : Prop :=
  0 ≤ p.x ∧ p.x < f.size_x ∧ 0 ≤ p.y ∧ p.y < f.size_y

instance (f : SnakeGameField) (p : Point) : Decidable (pointInField f p) := by
  unfold pointInField; infer_instance

/-- Spec-side predicate: every snake coordinate is in range. -/
def inBounds (f : SnakeGameField) : Prop :=
  pointInField f f.snake.head ∧ ∀ p ∈ f.snake.tail, pointInField f p

instance (f : SnakeGameField) : Decidable (inBounds f) := by
  unfold inBounds; infer_instance

/-- Spec-side predicate: the cell `p` is occupied by neither the snake head
nor any tail segment. -/
def freeCell (snake : Snake) (p : Point) : Prop :=
  snake.head ≠ p ∧ p ∉ snake.tail

instance (snake : Snake) (p : Point) : Decidable (freeCell snake p) := by
  unfold freeCell; infer_instance

/-- The candidate the rejection loop of `Fruit::random_from_field` draws at
iteration `n` of the raw-draw stream `s`. -/
def candidate (field : SnakeGameField) (s : Nat → Nat × Nat) (n : Nat) : Point :=
  (Fruit.random (0, field.size_x) (0, field.size_y) (s n).1 (s n).2).pos

/-- A raw-draw stream that always produces the pair `(0, 0)`. -/
def zeroStream : Nat → Nat × Nat := fun _ => (0, 0)

/-- Concrete state with the head on the fruit at `(5, 5)` and empty tail. -/
def cexField : SnakeGameField :=
  { size_x := 10
    size_y := 10
    snake := { head := ⟨5, 5⟩, tail := [], direction := SnakeDirection.right, ate_fruit := false }
    fruit := ⟨⟨5, 5⟩⟩ }

/-- Concrete state with the head on the fruit at `(5, 5)` and tail `[(1, 1)]`. -/
def exFieldEat : SnakeGameField :=
  { size_x := 10
    size_y := 10
    snake := { head := ⟨5, 5⟩, tail := [⟨1, 1⟩], direction := SnakeDirection.right, ate_fruit := false }
    fruit := ⟨⟨5, 5⟩⟩ }

/-- The state `exFieldEat` after a fruit-collision step driven by `zeroStream`. -/
def exFieldEatAfter : SnakeGameField :=
  { size_x := 10
    size_y := 10
    snake := { head := ⟨5, 5⟩, tail := [⟨1, 1⟩], direction := SnakeDirection.right, ate_fruit := true }
    fruit := ⟨⟨0, 0⟩⟩ }

/-- Concrete in-bounds mid-game state: head `(2, 3)`, tail of length 2, fruit
away from the head. -/
def exFieldMid : SnakeGameField :=
  { size_x := 10
    size_y := 10
    snake :=
      { head := ⟨2, 3⟩
        tail := [⟨1, 2⟩, ⟨1, 3⟩]
        direction := SnakeDirection.right
        ate_fruit := false }
    fruit := ⟨⟨7, 8⟩⟩ }

/-- Concrete 1×1 field whose single cell `(0, 0)` is free. -/
def exFieldOne : SnakeGameField :=
  { size_x := 1
    size_y := 1
    snake := { head := ⟨5, 5⟩, tail := [], direction := SnakeDirection.right, ate_fruit := false }
    fruit := ⟨⟨9, 9⟩⟩ }

/-- Concrete state with empty tail and the growth flag set. -/
def exFieldGrow : SnakeGameField :=
  { size_x := 10
    size_y := 10
    snake := { head := ⟨5, 5⟩, tail := [], direction := SnakeDirection.right, ate_fruit := true }
    fruit := ⟨⟨0, 0⟩⟩ }

/-- The state `cexField` after a fruit-collision step driven by `zeroStream`:
the resampled fruit lands on `(0, 0)`. -/
def cexFieldAfter : SnakeGameField :=
  { size_x := 10
    size_y := 10
    snake := { head := ⟨5, 5⟩, tail := [], direction := SnakeDirection.right, ate_fruit := true }
    fruit := ⟨⟨0, 0⟩⟩ }

/-- Helper: full characterization of `try_change_direction` — the direction is
updated unless the request is the exact reverse, and no other field changes. -/
theorem tcd_spec (s : Snake) (d : SnakeDirection) :
    (s.tryChangeDirection d).direction =
      (if d = s.direction.opposite then s.direction else d) ∧
    (s.tryChangeDirection d).head = s.head ∧
    (s.tryChangeDirection d).tail = s.tail ∧
    (s.tryChangeDirection d).ate_fruit = s.ate_fruit := by
  obtain ⟨h, t, dir, a⟩ := s
  cases dir <;> cases d <;>
    simp [Snake.tryChangeDirection, SnakeDirection.opposite]

/-- Helper: every segment of the tail after `push_snake` is an old tail
segment or the old head. -/
theorem pushSnake_tail_mem (f : SnakeGameField) (p : Point)
    (hp : p ∈ f.pushSnake.snake.tail) : p ∈ f.snake.tail ∨ p = f.snake.head := by
  obtain ⟨sx, sy, ⟨h, t, dir, a⟩, fr⟩ := f
  simp only [SnakeGameField.pushSnake] at hp
  cases a <;> cases t <;> simp_all <;> tauto

/-- Helper: a fruit accepted by the rejection loop of `random_from_field`
equals neither the snake head nor any tail segment. -/
theorem randomFromField_free (field : SnakeGameField) (s : Nat → Nat × Nat) (fuel : Nat)
    (fr : Fruit) (h : Fruit.randomFromField field s fuel = some fr) :
    field.snake.head ≠ fr.pos ∧ fr.pos ∉ field.snake.tail := by
  induction fuel generalizing s with
  | zero => simp [Fruit.randomFromField] at h
  | succ n ih =>
    simp only [Fruit.randomFromField] at h
    split at h
    · exact ih _ h
    · rename_i hacc
      cases h
      push_neg at hacc
      exact hacc

/-- Helper: on a field of positive size, a fruit accepted by the rejection
loop lies in `[0, size_x) × [0, size_y)`. -/
theorem randomFromField_range (field : SnakeGameField) (s : Nat → Nat × Nat) (fuel : Nat)
    (fr : Fruit) (hx : 0 < field.size_x) (hy : 0 < field.size_y)
    (h : Fruit.randomFromField field s fuel = some fr) :
    0 ≤ fr.pos.x ∧ fr.pos.x < field.size_x ∧ 0 ≤ fr.pos.y ∧ fr.pos.y < field.size_y := by
  induction fuel generalizing s with
  | zero => simp [Fruit.randomFromField] at h
  | succ n ih =>
    simp only [Fruit.randomFromField] at h
    split at h
    · exact ih _ h
    · cases h
      have h1 : (s 0).1 % field.size_x.toNat < field.size_x.toNat :=
        Nat.mod_lt _ (by omega)
      have h2 : (s 0).2 % field.size_y.toNat < field.size_y.toNat :=
        Nat.mod_lt _ (by omega)
      simp only [Fruit.random, genRange, Int.sub_zero, Int.zero_add]
      omega

/-- Helper: the rejection loop accepts within `fuel` iterations as soon as
some iteration below `fuel` draws a free cell. -/
theorem randomFromField_isSome_of_free (field : SnakeGameField) (s : Nat → Nat × Nat)
    (fuel : Nat) (h : ∃ n, n < fuel ∧ freeCell field.snake (candidate field s n)) :
    (Fruit.randomFromField field s fuel).isSome = true := by
  induction fuel generalizing s with
  | zero =>
    obtain ⟨n, hn, _⟩ := h
    omega
  | succ m ih =>
    simp only [Fruit.randomFromField]
    split
    · rename_i hrej
      apply ih
      obtain ⟨n, hn, hfree⟩ := h
      cases n with
      | zero =>
        exfalso
        rcases hrej with hrej | hrej
        · exact hfree.1 hrej
        · exact hfree.2 hrej
      | succ k => exact ⟨k, by omega, hfree⟩
    · simp

/-- Claim C1 counterexample: in the state `cexField` (head on the fruit at
`(5, 5)`, empty tail), `handle_snake_fruit_collision` driven by raw draws
`(0, 0)` resamples the fruit to `(0, 0)`, whose coordinates are not both at
least 1 — row 0 and column 0 can hold a resampled fruit. -/
theorem resample_escapes_claimed_bounds :
    cexField.snake.head = cexField.fruit.pos ∧
    ((SnakeGameField.handleSnakeFruitCollision zeroStream 1 cexField).map
      (fun f => f.fruit.pos)) = some ⟨0, 0⟩ ∧
    ¬ (1 ≤ (Point.mk 0 0).x ∧ 1 ≤ (Point.mk 0 0).y) := by
  decide

/-- Claim C1 (amended): whenever `handle_snake_fruit_collision` resamples
(head on fruit, positive field sizes), the replacement fruit lies in
`[0, size_x) × [0, size_y)` — its coordinates are at least 0, not at least 1. -/
theorem resample_bounds (f f' : SnakeGameField) (s : Nat → Nat × Nat) (fuel : Nat)
    (hx : 0 < f.size_x) (hy : 0 < f.size_y)
    (hcol : f.snake.head = f.fruit.pos)
    (h : SnakeGameField.handleSnakeFruitCollision s fuel f = some f') :
    0 ≤ f'.fruit.pos.x ∧ f'.fruit.pos.x < f.size_x ∧
    0 ≤ f'.fruit.pos.y ∧ f'.fruit.pos.y < f.size_y := by
  simp only [SnakeGameField.handleSnakeFruitCollision, if_pos hcol,
    Option.map_eq_some'] at h
  obtain ⟨fr, hfr, rfl⟩ := h
  have := randomFromField_range _ _ _ fr (by simpa using hx) (by simpa using hy) hfr
  simpa using this

/-- Claim C1 witness: the amended bounds hold on the concrete resampling run
from `cexField`. -/
theorem resample_bounds_witness :
    (0 < cexField.size_x ∧ 0 < cexField.size_y ∧
      cexField.snake.head = cexField.fruit.pos ∧
      SnakeGameField.handleSnakeFruitCollision zeroStream 1 cexField = some cexFieldAfter) ∧
    (0 ≤ cexFieldAfter.fruit.pos.x ∧ cexFieldAfter.fruit.pos.x < cexField.size_x ∧
      0 ≤ cexFieldAfter.fruit.pos.y ∧ cexFieldAfter.fruit.pos.y < cexField.size_y) :=
  ⟨by decide,
    resample_bounds cexField cexFieldAfter zeroStream 1 (by decide) (by decide)
      (by decide) (by decide)⟩

/-- Claim C2: when `handle_snake_fruit_collision` returns (with some fuel for
the rejection loop), the fruit of the resulting state equals neither the head
nor any tail segment whenever a resample happened (head was on the fruit);
when the head was not on the fruit the state is returned unchanged. -/
theorem handle_fruit_spec (f f' : SnakeGameField) (s : Nat → Nat × Nat) (fuel : Nat)
    (h : SnakeGameField.handleSnakeFruitCollision s fuel f = some f') :
    (f.snake.head = f.fruit.pos →
      f'.fruit.pos ≠ f'.snake.head ∧ f'.fruit.pos ∉ f'.snake.tail) ∧
    (f.snake.head ≠ f.fruit.pos → f' = f) := by
  constructor
  · intro hcol
    simp only [SnakeGameField.handleSnakeFruitCollision, if_pos hcol,
      Option.map_eq_some'] at h
    obtain ⟨fr, hfr, rfl⟩ := h
    have hfree := randomFromField_free _ _ _ _ hfr
    simp only at hfree
    exact ⟨fun he => hfree.1 he.symm, hfree.2⟩
  · intro hne
    simp only [SnakeGameField.handleSnakeFruitCollision, if_neg hne] at h
    exact (Option.some_inj.mp h).symm

/-- Claim C2 witness: a concrete resampling run from `exFieldEat` (head on the
fruit, tail `[(1, 1)]`) lands on a cell equal to neither head nor tail. -/
theorem handle_fruit_spec_witness :
    SnakeGameField.handleSnakeFruitCollision zeroStream 1 exFieldEat = some exFieldEatAfter ∧
    exFieldEat.snake.head = exFieldEat.fruit.pos ∧
    (exFieldEatAfter.fruit.pos ≠ exFieldEatAfter.snake.head ∧
      exFieldEatAfter.fruit.pos ∉ exFieldEatAfter.snake.tail) :=
  ⟨by decide, by decide,
    (handle_fruit_spec exFieldEat exFieldEatAfter zeroStream 1 (by decide)).1 (by decide)⟩

/-- Claim C3: for a state with head coordinates in range, `push_snake` moves
the head exactly one cell in the current direction, wrapping from `x = 0` to
`size_x - 1` when moving Left, from `x = size_x - 1` to `0` when moving Right,
and symmetrically in `y` for Up and Down. -/
theorem push_snake_head (f : SnakeGameField)
    (hx0 : 0 ≤ f.snake.head.x) (hx1 : f.snake.head.x < f.size_x)
    (hy0 : 0 ≤ f.snake.head.y) (hy1 : f.snake.head.y < f.size_y) :
    f.pushSnake.snake.head =
      match f.snake.direction with
      | SnakeDirection.up =>
        ⟨f.snake.head.x, if f.snake.head.y = 0 then f.size_y - 1 else f.snake.head.y - 1⟩
      | SnakeDirection.right =>
        ⟨if f.snake.head.x = f.size_x - 1 then 0 else f.snake.head.x + 1, f.snake.head.y⟩
      | SnakeDirection.down =>
        ⟨f.snake.head.x, if f.snake.head.y = f.size_y - 1 then 0 else f.snake.head.y + 1⟩
      | SnakeDirection.left =>
        ⟨if f.snake.head.x = 0 then f.size_x - 1 else f.snake.head.x - 1, f.snake.head.y⟩ := by
  obtain ⟨sx, sy, ⟨⟨hx, hy⟩, t, dir, a⟩, fr⟩ := f
  simp only at hx0 hx1 hy0 hy1
  cases dir <;>
    simp [SnakeGameField.pushSnake, Point.mk.injEq] <;>
    split_ifs <;> (try simp [Point.mk.injEq]) <;> omega

/-- Claim C3 witness: from `exFieldMid` (head `(2, 3)`, moving Right), one
`push_snake` puts the head at `(3, 3)`. -/
theorem push_snake_head_witness :
    (0 ≤ exFieldMid.snake.head.x ∧ exFieldMid.snake.head.x < exFieldMid.size_x ∧
      0 ≤ exFieldMid.snake.head.y ∧ exFieldMid.snake.head.y < exFieldMid.size_y) ∧
    exFieldMid.pushSnake.snake.head = ⟨3, 3⟩ :=
  ⟨by decide,
    Eq.trans
      (push_snake_head exFieldMid (by decide) (by decide) (by decide) (by decide))
      (by decide)⟩

/-- Claim C4: for every state, `push_snake` grows the tail by exactly one
segment when `ate_fruit` was set and keeps its length otherwise, resets
`ate_fruit`, and on a growth tick from an empty tail makes the pre-move head
the sole tail segment. -/
theorem push_snake_growth (f : SnakeGameField) :
    f.pushSnake.snake.tail.length =
      f.snake.tail.length + (if f.snake.ate_fruit then 1 else 0) ∧
    f.pushSnake.snake.ate_fruit = false ∧
    (f.snake.tail = [] → f.snake.ate_fruit = true →
      f.pushSnake.snake.tail = [f.snake.head]) := by
  obtain ⟨sx, sy, ⟨h, t, dir, a⟩, fr⟩ := f
  cases a <;> cases t <;> simp [SnakeGameField.pushSnake]

/-- Claim C4 witness: the empty-tail growth tick from `exFieldGrow` produces a
tail holding exactly the pre-move head. -/
theorem push_snake_growth_witness :
    exFieldGrow.snake.tail = [] ∧ exFieldGrow.snake.ate_fruit = true ∧
    exFieldGrow.pushSnake.snake.tail = [exFieldGrow.snake.head] :=
  ⟨by decide, by decide, (push_snake_growth exFieldGrow).2.2 (by decide) (by decide)⟩

/-- Claim C5: `try_change_direction` leaves the direction unchanged exactly
when the request is the reverse of the current direction, sets it to the
request otherwise (including re-requesting the current direction), and changes
no other field of the snake. -/
theorem try_change_direction_spec (s : Snake) (d : SnakeDirection) :
    (s.tryChangeDirection d).direction =
      (if d = s.direction.opposite then s.direction else d) ∧
    (s.tryChangeDirection d).head = s.head ∧
    (s.tryChangeDirection d).tail = s.tail ∧
    (s.tryChangeDirection d).ate_fruit = s.ate_fruit :=
  tcd_spec s d

/-- Claim C6: `check_snake_collision` is true exactly when the head equals
some tail segment, and (whenever the tail length does not overflow the `i32`
cast) `check_win` is true exactly when tail length + 1 equals
`size_x * size_y`. -/
theorem check_spec (f : SnakeGameField) (h : f.snake.tail.length + 1 < 2 ^ 31) :
    (f.checkSnakeCollision = true ↔ f.snake.head ∈ f.snake.tail) ∧
    (f.checkWin = true ↔ (f.snake.tail.length : Int) + 1 = f.size_x * f.size_y) := by
  constructor
  · simp only [SnakeGameField.checkSnakeCollision, List.any_eq_true, decide_eq_true_eq]
    exact ⟨fun ⟨x, hx, he⟩ => he ▸ hx, fun hm => ⟨_, hm, rfl⟩⟩
  · have hm : (f.snake.tail.length + 1) % 2 ^ 32 = f.snake.tail.length + 1 :=
      Nat.mod_eq_of_lt (by omega)
    simp only [SnakeGameField.checkWin, usizeAsI32, hm, if_pos h, decide_eq_true_eq]
    generalize f.size_x * f.size_y = m
    omega

/-- Claim C6 witness: both characterizations evaluated at `exFieldMid`. -/
theorem check_spec_witness :
    exFieldMid.snake.tail.length + 1 < 2 ^ 31 ∧
    ((exFieldMid.checkSnakeCollision = true ↔
        exFieldMid.snake.head ∈ exFieldMid.snake.tail) ∧
      (exFieldMid.checkWin = true ↔
        (exFieldMid.snake.tail.length : Int) + 1 = exFieldMid.size_x * exFieldMid.size_y)) :=
  ⟨by decide, check_spec exFieldMid (by decide)⟩

/-- Claim C7: a state whose head and tail coordinates are all in
`[0, size_x) × [0, size_y)` keeps that property after `try_change_direction`,
after any returning `handle_snake_fruit_collision`, and after `push_snake`. -/
theorem ops_preserve_bounds (f : SnakeGameField) (d : SnakeDirection)
    (s : Nat → Nat × Nat) (fuel : Nat) (hf : inBounds f) :
    inBounds { f with snake := f.snake.tryChangeDirection d } ∧
    (∀ f', SnakeGameField.handleSnakeFruitCollision s fuel f = some f' → inBounds f') ∧
    inBounds f.pushSnake := by
  obtain ⟨sx, sy, ⟨hd, t, dir, a⟩, fr⟩ := f
  obtain ⟨hh, ht⟩ := hf
  have hb : 0 ≤ hd.x ∧ hd.x < sx ∧ 0 ≤ hd.y ∧ hd.y < sy := hh
  refine ⟨⟨?_, ?_⟩, ?_, ⟨?_, ?_⟩⟩
  · have h1 : (Snake.tryChangeDirection ⟨hd, t, dir, a⟩ d).head = hd :=
      (tcd_spec ⟨hd, t, dir, a⟩ d).2.1
    have h2 : pointInField
        (SnakeGameField.mk sx sy (Snake.tryChangeDirection ⟨hd, t, dir, a⟩ d) fr)
        (Snake.tryChangeDirection ⟨hd, t, dir, a⟩ d).head := by
      rw [h1]; exact hh
    exact h2
  · intro p hp
    have hp' : p ∈ (Snake.tryChangeDirection ⟨hd, t, dir, a⟩ d).tail := hp
    rw [(tcd_spec ⟨hd, t, dir, a⟩ d).2.2.1] at hp'
    exact ht p hp'
  · intro f' hsome
    by_cases hc : hd = fr.pos
    · have hc' : (SnakeGameField.mk sx sy ⟨hd, t, dir, a⟩ fr).snake.head =
          (SnakeGameField.mk sx sy ⟨hd, t, dir, a⟩ fr).fruit.pos := hc
      simp only [SnakeGameField.handleSnakeFruitCollision, if_pos hc',
        Option.map_eq_some'] at hsome
      obtain ⟨fr2, _, rfl⟩ := hsome
      exact ⟨hh, fun p hp => ht p hp⟩
    · have hc' : ¬ (SnakeGameField.mk sx sy ⟨hd, t, dir, a⟩ fr).snake.head =
          (SnakeGameField.mk sx sy ⟨hd, t, dir, a⟩ fr).fruit.pos := hc
      simp only [SnakeGameField.handleSnakeFruitCollision, if_neg hc'] at hsome
      obtain rfl := Option.some_inj.mp hsome
      exact ⟨hh, ht⟩
  · cases dir <;>
      simp [SnakeGameField.pushSnake, pointInField] <;>
      split_ifs <;> omega
  · intro p hp
    rcases pushSnake_tail_mem _ p hp with h1 | h1
    · exact ht p h1
    · rw [h1]; exact hh

/-- Claim C7 witness: the invariant holds at `exFieldMid` and is preserved by
the three operations there. -/
theorem ops_preserve_bounds_witness :
    inBounds exFieldMid ∧
    SnakeGameField.handleSnakeFruitCollision zeroStream 5 exFieldMid = some exFieldMid ∧
    inBounds { exFieldMid with snake := exFieldMid.snake.tryChangeDirection SnakeDirection.up } ∧
    inBounds exFieldMid.pushSnake :=
  ⟨by decide, by decide,
    (ops_preserve_bounds exFieldMid SnakeDirection.up zeroStream 5 (by decide)).1,
    (ops_preserve_bounds exFieldMid SnakeDirection.up zeroStream 5 (by decide)).2.2⟩

/-- Claim C8: the rejection loop terminates when a free cell exists in the
sampling domain `[0, size_x) × [0, size_y)`, under the fairness assumption
that the random candidate stream eventually draws every cell of the domain
(the model of uniform sampling): some fuel makes the loop accept. -/
theorem fruit_loop_terminates (f : SnakeGameField) (s : Nat → Nat × Nat)
    (hfair : ∀ p : Point, pointInField f p → ∃ n, candidate f s n = p)
    (hfree : ∃ p, pointInField f p ∧ freeCell f.snake p) :
    ∃ fuel, (Fruit.randomFromField f s fuel).isSome = true := by
  obtain ⟨p, hp, hfr⟩ := hfree
  obtain ⟨n, hn⟩ := hfair p hp
  exact ⟨n + 1,
    randomFromField_isSome_of_free f s (n + 1) ⟨n, by omega, by rw [hn]; exact hfr⟩⟩

/-- Claim C8 witness: on the 1×1 field `exFieldOne`, whose single cell is
free, the loop driven by the constant stream accepts. -/
theorem fruit_loop_terminates_witness :
    (∃ p, pointInField exFieldOne p ∧ freeCell exFieldOne.snake p) ∧
    ∃ fuel, (Fruit.randomFromField exFieldOne zeroStream fuel).isSome = true := by
  constructor
  · exact ⟨⟨0, 0⟩, by decide, by decide⟩
  · apply fruit_loop_terminates
    · intro p hp
      refine ⟨0, ?_⟩
      obtain ⟨x, y⟩ := p
      have hbp : 0 ≤ x ∧ x < 1 ∧ 0 ≤ y ∧ y < 1 := hp
      have hx : x = 0 := by omega
      have hy : y = 0 := by omega
      subst hx
      subst hy
      decide
    · exact ⟨⟨0, 0⟩, by decide, by decide⟩

/-- Claim C9: `render` issues the fruit-colored draw of the fruit's cell quad
(row-major index `x + y * size_x`) exactly when the fruit is not under the
head, and always draws the head quad and one quad per tail segment. -/
theorem render_spec (f : SnakeGameField) (h : f.size_x = 10) :
    (DrawCmd.cellQuad (f.fruit.pos.x + f.fruit.pos.y * f.size_x) RenderColor.fruitColor ∈
        SnakeGameRenderer.render f ↔ f.fruit.pos ≠ f.snake.head) ∧
    DrawCmd.cellQuad (f.snake.head.x + f.snake.head.y * f.size_x)
        RenderColor.snakePartColor ∈ SnakeGameRenderer.render f ∧
    ∀ p ∈ f.snake.tail,
      DrawCmd.cellQuad (p.x + p.y * f.size_x) RenderColor.snakePartColor ∈
        SnakeGameRenderer.render f := by
  rw [h]
  refine ⟨?_, ?_, ?_⟩
  · by_cases hc : f.snake.head = f.fruit.pos
    · simp [SnakeGameRenderer.render, getQuad, hc]
    · simp [SnakeGameRenderer.render, getQuad, hc]
      exact fun he => hc he.symm
  · simp [SnakeGameRenderer.render, getQuad]
  · intro p hp
    simp [SnakeGameRenderer.render, getQuad]
    exact Or.inr ⟨p, hp, rfl⟩

/-- Claim C9 witness: the fruit-draw equivalence evaluated at `exFieldMid`. -/
theorem render_spec_witness :
    exFieldMid.size_x = 10 ∧
    (DrawCmd.cellQuad
        (exFieldMid.fruit.pos.x + exFieldMid.fruit.pos.y * exFieldMid.size_x)
        RenderColor.fruitColor ∈ SnakeGameRenderer.render exFieldMid ↔
      exFieldMid.fruit.pos ≠ exFieldMid.snake.head) :=
  ⟨by decide, (render_spec exFieldMid (by decide)).1⟩

/-- Claim C10: for every pair of raw draws, `create` yields head `(0, 0)`,
direction Right, empty tail, `ate_fruit` false, a 10×10 field, and a fruit in
`[1, 10) × [1, 10)` — hence the initial fruit never equals the initial head. -/
theorem create_spec (rx ry : Nat) :
    (SnakeGameField.create rx ry).snake.head = Point.origin ∧
    (SnakeGameField.create rx ry).snake.direction = SnakeDirection.right ∧
    (SnakeGameField.create rx ry).snake.tail = [] ∧
    (SnakeGameField.create rx ry).snake.ate_fruit = false ∧
    (SnakeGameField.create rx ry).size_x = 10 ∧
    (SnakeGameField.create rx ry).size_y = 10 ∧
    (1 ≤ (SnakeGameField.create rx ry).fruit.pos.x ∧
      (SnakeGameField.create rx ry).fruit.pos.x < 10) ∧
    (1 ≤ (SnakeGameField.create rx ry).fruit.pos.y ∧
      (SnakeGameField.create rx ry).fruit.pos.y < 10) ∧
    (SnakeGameField.create rx ry).fruit.pos ≠ (SnakeGameField.create rx ry).snake.head := by
  have hx : rx % 9 < 9 := Nat.mod_lt _ (by norm_num)
  have hy : ry % 9 < 9 := Nat.mod_lt _ (by norm_num)
  simp [SnakeGameField.create, Fruit.random, genRange, Point.origin, Point.mk.injEq]
  omega

end SnakeRs
